import Mathlib

/-!
# Verification of the inji-offline-app offline credential verifier

A shallow embedding of the offline-verifier pipeline of the repository:

* `CacheHelper.ts` — the three cache tables (contexts, public keys, revoked
  VCs) with their upsert / replace-for-organization operations, modelled as
  lookup-observable stores (`String → Option record`), matching the JS
  `Record<string, T>` objects whose observable behaviour in the pipeline is
  key lookup;
* `AsyncStorageStore.ts` — the durable key/value layer with its
  error-swallowing `writeJson`;
* `LdpVerifier.verify` — offline preflight, proof extraction / normalization
  and the all-proofs-must-verify loop, with the cryptographic verification of
  a single proof kept as a parameter (it is performed by the external
  `jsonld-signatures` library);
* `OfflineDocumentLoader.documentLoader` — cache-first context resolution
  with fetch-and-cache fallback;
* `PublicKeyService.getPublicKey` — cache-first key resolution with online
  fallback, inactive-key gating and Ed25519 multibase backfill;
* `DidWebPublicKeyGetter.get` — did:web parsing and the fixed
  PEM → multibase → JWK → hex key-extraction priority.

JavaScript semantics that matter are made explicit: falsiness of `undefined`,
`null`, `false`, `0` and the empty string; `Array.isArray` normalization;
`??` defaulting; `split`-based string surgery.  Machine integers do not occur
(all numbers involved are small naturals).
-/

namespace InjiOffline

/-- Parsed JSON values, as produced by `JSON.parse`.  `undefined` (an absent
field) is represented by `Option.none` at use sites, never as a `Json`
value. -/
inductive Json where
  | jnull
  | jbool (b : Bool)
  | jnum (n : Int)
  | jstr (s : String)
  | jarr (xs : List Json)
  | jobj (fields : List (String × Json))

/-- Field lookup in a parsed JSON object.  `JSON.parse` keeps the *last*
occurrence of a duplicated key, so lookup prefers later fields. -/
def jsonGetField : List (String × Json) → String → Option Json
  | [], _ => none
  | (k, v) :: rest, key =>
    match jsonGetField rest key with
    | some v' => some v'
    | none => if k = key then some v else none

/-- Property access `obj[key]` on a parsed JSON value: `undefined` (`none`)
unless the value is an object with that field. -/
def Json.get (j : Json) (key : String) : Option Json :=
  match j with
  | .jobj fields => jsonGetField fields key
  | _ => none

/-- JavaScript truthiness of a JSON value: `null`, `false`, `0` and `""` are
falsy; arrays and objects (even empty ones) are truthy. -/
def jsTruthy : Json → Bool
  | .jnull => false
  | .jbool b => b
  | .jnum n => n != 0
  | .jstr s => !s.data.isEmpty
  | .jarr _ => true
  | .jobj _ => true

/-- Truthiness of a possibly-absent value (`undefined` is falsy). -/
def jsOptTruthy : Option Json → Bool
  | none => false
  | some j => jsTruthy j

/-- Truthiness of a possibly-absent string (`undefined` and `""` are falsy). -/
def strTruthy : Option String → Bool
  | none => false
  | some s => !s.data.isEmpty

/-- The `listHasPrefix l p` is true when `p` is a prefix of `l`. -/
def listHasPrefix : List Char → List Char → Bool
  | _, [] => true
  | [], _ :: _ => false
  | a :: as, b :: bs => a == b && listHasPrefix as bs

/-- Substring test on character lists. -/
def listContainsSub : List Char → List Char → Bool
  | [], needle => needle.isEmpty
  | a :: rest, needle => listHasPrefix (a :: rest) needle || listContainsSub rest needle

/-- JS `hay.includes(needle)`. -/
def strContains (hay needle : String) : Bool :=
  listContainsSub hay.data needle.data

/-- JS `s.startsWith(p)`. -/
def strStartsWith (s p : String) : Bool :=
  listHasPrefix s.data p.data

/-- Characters of `l` strictly before the first occurrence of `ch`; all of
`l` when `ch` does not occur.  This is JS `s.split(ch)[0]`. -/
def takeBeforeChar (ch : Char) : List Char → List Char
  | [] => []
  | c :: rest => if c == ch then [] else c :: takeBeforeChar ch rest

/-- JS `s.split('#')[0]`: the part of the string before the first `#`. -/
def beforeHash (s : String) : String :=
  String.mk (takeBeforeChar '#' s.data)

/-- Characters of `l` strictly before the first occurrence of the (non-empty)
separator `sep`; all of `l` when `sep` does not occur. -/
def takeUntilSub (sep : List Char) : List Char → List Char
  | [] => []
  | c :: rest =>
    if listHasPrefix (c :: rest) sep then [] else c :: takeUntilSub sep rest

/-- JS `s.split(ch)` for a single-character separator. -/
def splitOnCharL (ch : Char) : List Char → List (List Char)
  | [] => [[]]
  | c :: rest =>
    if c == ch then [] :: splitOnCharL ch rest
    else
      match splitOnCharL ch rest with
      | g :: gs => (c :: g) :: gs
      | [] => [[c]]

/-! ## Cache records (`CacheHelper.ts`) -/

/-- The `ContextRecord` of `CacheHelper.ts`. -/
structure ContextRecord where
  url : String
  document : Json
  cachedAt : Nat
  source : Option String
  organization_id : Option String

/-- The normalized `PublicKeyRecord` stored by `CacheHelper.ts` (every write
path fills the defaults, so stored fields are total). -/
structure PublicKeyRecord where
  key_id : String
  key_type : String
  public_key_multibase : Option String
  public_key_hex : Option String
  public_key_jwk : Option Json
  controller : String
  purpose : String
  is_active : Bool
  organization_id : Option String

/-- The `CachedPublicKey`, the caller-supplied input of `putPublicKeys` (optional
fields may be absent). -/
structure CachedPublicKey where
  key_id : String
  key_type : Option String
  public_key_multibase : Option String
  public_key_hex : Option String
  public_key_jwk : Option Json
  controller : String
  purpose : Option String
  is_active : Option Bool
  organization_id : Option String

/-- The `CachedRevokedVC` of `CacheHelper.ts`. -/
structure CachedRevokedVC where
  vc_id : String
  issuer : String
  subject : Option String
  reason : Option String
  revoked_at : String
  organization_id : String
  deriving DecidableEq

/-- A logical cache table: the lookup-observable state of the JS
`Record<string, T>` object held in storage. -/
def Store (R : Type) := String → Option R

/-- The empty table. -/
def emptyStore {R : Type} : Store R := fun _ => none

/-- The `store[k] = v` on a JS record object. -/
def storePut {R : Type} (k : String) (v : R) (s : Store R) : Store R :=
  fun k' => if k' = k then some v else s k'

/-- The delete loops of the `replace…ForOrganization` operations: keep the
entries satisfying `keep`. -/
def storeFilter {R : Type} (keep : R → Bool) (s : Store R) : Store R :=
  fun k => (s k).filter keep

/-- A `for (const a of records) { if (!valid a) continue; store[key a] = norm a }`
insertion loop over a JS record object. -/
def insertAll {α R : Type} (valid : α → Bool) (key : α → String) (norm : α → R)
    (records : List α) (st : Store R) : Store R :=
  records.foldl (fun acc a => if valid a then storePut (key a) (norm a) acc else acc) st

/-- Context table state. -/
def CtxStore := Store ContextRecord

/-- Public-key table state. -/
def KeyStore := Store PublicKeyRecord

/-- Revoked-VC table state. -/
def RevokedStore := Store CachedRevokedVC

/-- Input element of `putContexts` (`organization_id` optional). -/
structure PutContextInput where
  url : String
  document : Json
  organization_id : Option String

/-- The `CacheHelper.putContexts`: upsert each context under its URL with
`cachedAt := now`, provenance `source: 'prime'` and the given (defaulted)
organization; entries with a falsy `url` are skipped. -/
def putContexts (now : Nat) (contexts : List PutContextInput) (st : CtxStore) : CtxStore :=
  if contexts.isEmpty then st
  else
    insertAll (fun c => !c.url.data.isEmpty) (fun c => c.url)
      (fun c =>
        { url := c.url, document := c.document, cachedAt := now
          source := some "prime", organization_id := c.organization_id })
      contexts st

/-- The `CacheHelper.getContext`: `store[url]?.document ?? null` — the document,
or JS `null` when the URL is not cached. -/
def getContextJ (st : CtxStore) (url : String) : Json :=
  match st url with
  | some r => r.document
  | none => Json.jnull

/-- The `CacheHelper.replaceContextsForOrganization`: delete every context whose
(defaulted) organization equals `organizationId`, then insert the new set
with `cachedAt := now` and provenance `source: 'org-sync'`. -/
def replaceContextsForOrganization (now : Nat) (organizationId : String)
    (contexts : List (String × Json)) (st : CtxStore) : CtxStore :=
  insertAll (fun c => !c.1.data.isEmpty) (fun c => c.1)
    (fun c =>
      { url := c.1, document := c.2, cachedAt := now
        source := some "org-sync", organization_id := some organizationId })
    contexts
    (storeFilter (fun r => !(r.organization_id == some organizationId)) st)

/-- The field normalization `putPublicKeys` applies before storing a record:
defaults for `key_type`, `purpose`, `is_active` and `organization_id`, and
`controller.split('#')[0]`. -/
def normalizeCachedKey (k : CachedPublicKey) : PublicKeyRecord :=
  { key_id := k.key_id
    key_type := k.key_type.getD "Ed25519VerificationKey2020"
    public_key_multibase := k.public_key_multibase
    public_key_hex := k.public_key_hex
    public_key_jwk := k.public_key_jwk
    controller := beforeHash k.controller
    purpose := k.purpose.getD "assertion"
    is_active := k.is_active.getD true
    organization_id := k.organization_id }

/-- The insertion loop of `CacheHelper.putPublicKeys`: throws when a record
lacks `key_id` or `controller`, otherwise upserts the normalized record. -/
def putPublicKeysFold : List CachedPublicKey → KeyStore → Except String KeyStore
  | [], st => .ok st
  | k :: rest, st =>
    if k.key_id.data.isEmpty || k.controller.data.isEmpty then
      .error "putPublicKeys: key_id and controller are required"
    else putPublicKeysFold rest (storePut k.key_id (normalizeCachedKey k) st)

/-- The `CacheHelper.putPublicKeys` (acting on the loaded table state): an empty
input returns immediately, otherwise each record is validated and upserted. -/
def putPublicKeys (keys : List CachedPublicKey) (st : KeyStore) : Except String KeyStore :=
  if keys.isEmpty then .ok st else putPublicKeysFold keys st

/-- The `CacheHelper.getKeyById`: `store[keyId] ?? null`. -/
def getKeyById (st : KeyStore) (keyId : String) : Option PublicKeyRecord :=
  st keyId

/-- The `CacheHelper.replacePublicKeysForOrganization`: delete every key whose
(defaulted) organization equals `organizationId`, then insert the new set
(skipping records without `key_id` or `controller`, with the same field
normalization as `putPublicKeys`; note the inserted record keeps its *own*
`organization_id ?? null`, not `organizationId`). -/
def replacePublicKeysForOrganization (organizationId : String)
    (publicKeys : List CachedPublicKey) (st : KeyStore) : KeyStore :=
  insertAll (fun k => !(k.key_id.data.isEmpty || k.controller.data.isEmpty))
    (fun k => k.key_id) normalizeCachedKey publicKeys
    (storeFilter (fun r => !(r.organization_id == some organizationId)) st)

/-- The `CacheHelper.replaceRevokedVCsForOrganization`: delete every record whose
`organization_id` equals `organizationId`, then insert the new set keyed by
`vc_id` (the spread copies the record unchanged; `?? undefined` on `subject`
and `reason` is the identity). -/
def replaceRevokedVCsForOrganization (organizationId : String)
    (revokedVCs : List CachedRevokedVC) (st : RevokedStore) : RevokedStore :=
  insertAll (fun _ => true) (fun v => v.vc_id) (fun v => v) revokedVCs
    (storeFilter (fun r => !(r.organization_id == organizationId)) st)

/-! ## Durable storage layer (`AsyncStorageStore.ts`) -/

/-- The backing slot a cache table lives under (one `AsyncStorage` key).
`data` is the parsed stored value (`JSON.parse ∘ JSON.stringify` is the
identity on JSON-safe values, so we store the value itself); `failWrites`
models a backing store whose `setItem` rejects. -/
structure BackingSlot (α : Type) where
  data : Option α
  failWrites : Bool

/-- The `storage.setItem`: rejects exactly when the backing store fails. -/
def setItem {α : Type} (v : α) (s : BackingSlot α) : Except String (BackingSlot α) :=
  if s.failWrites then .error "storage write failed"
  else .ok { data := some v, failWrites := s.failWrites }

/-- The `AsyncStorageStore.writeJson`: the `setItem` failure is caught, logged
with `console.error`, and the promise resolves normally — the slot is left
unchanged and the caller sees success. -/
def writeJson {α : Type} (v : α) (s : BackingSlot α) : Except String (BackingSlot α) :=
  match setItem v s with
  | .ok s' => .ok s'
  | .error _ => .ok s

/-- The `AsyncStorageStore.readJson`: the stored value, or the fallback when the
key is absent (read errors are also caught and become the fallback). -/
def readJson {α : Type} (fallback : α) (s : BackingSlot α) : α :=
  s.data.getD fallback

/-- The `CacheHelper.putPublicKeys` acting through the storage layer:
`loadPublicKeys` (read with `{}` fallback), the validation/upsert loop, then
`savePublicKeys` via `writeJson`. -/
def putPublicKeysStored (keys : List CachedPublicKey) (s : BackingSlot KeyStore) :
    Except String (BackingSlot KeyStore) :=
  if keys.isEmpty then .ok s
  else
    match putPublicKeysFold keys (readJson emptyStore s) with
    | .error e => .error e
    | .ok st => writeJson st s

/-! ## `LdpVerifier.verify` (`LdpVerifier.ts`) -/

/-- The offline-missing-dependency sentinel
`CredentialVerifierConstants.ERROR_CODE_OFFLINE_DEPENDENCIES_MISSING`.
The constants file is not among the provided sources; the value is the one
the application layer matches against (`verify.tsx`). -/
def offlineDepsSentinel : String := "ERR_OFFLINE_DEPENDENCIES_MISSING"

/-- Errors thrown out of `LdpVerifier.verify`: the plain `Error` carrying the
offline sentinel message, or any other error with its message. -/
inductive VErr where
  | offlineDeps
  | unknown (msg : String)
  deriving DecidableEq

/-- The message of a thrown error (`exception.message`). -/
def vErrMessage : VErr → String
  | .offlineDeps => offlineDepsSentinel
  | .unknown m => m

/-- The preflight loop body: for each `@context` URL, `getContext` must
return a truthy document, else the offline sentinel is thrown. -/
def checkUrls (st : CtxStore) : List String → Except VErr Unit
  | [] => .ok ()
  | u :: rest =>
    if jsTruthy (getContextJ st u) then checkUrls st rest
    else .error .offlineDeps

/-- The `@context` URL list `verify` preflights: the field normalized to an
array (a non-array value, including an absent one, is wrapped singleton),
keeping only string entries. -/
def ctxUrlList (vc : Json) : List String :=
  let ctxList : List (Option Json) :=
    match vc.get "@context" with
    | some (Json.jarr xs) => xs.map some
    | other => [other]
  ctxList.filterMap fun c =>
    match c with
    | some (Json.jstr s) => some s
    | _ => none

/-- The offline preflight of `LdpVerifier.verify`: runs only when the runtime
is explicitly offline. -/
def preflight (offline : Bool) (st : CtxStore) (vc : Json) : Except VErr Unit :=
  if offline then checkUrls st (ctxUrlList vc) else .ok ()

/-- STEP 2 of `LdpVerifier.verify`: verify each proof in order, returning
`false` at the first failing proof and `true` when none fail; `sp` is
`verifySingleProof` (whose cryptographic outcome is external). -/
def verifyProofLoop (sp : Json → Except VErr Bool) : List Json → Except VErr Bool
  | [] => .ok true
  | p :: rest =>
    match sp p with
    | .error e => .error e
    | .ok true => verifyProofLoop sp rest
    | .ok false => .ok false

/-- The `Array.isArray(proof) ? proof : [proof]` on the extracted `proof` field. -/
def normalizeProofs : Option Json → List Json
  | some (Json.jarr xs) => xs
  | some p => [p]
  | none => []

/-- The body of `LdpVerifier.verify` on the parsed credential: offline
preflight, the falsy-check on `proof` (absence ⇒ `false`), then the per-proof
loop over the normalized proof list. -/
def ldpVerifyBody (offline : Bool) (st : CtxStore) (sp : Json → Except VErr Bool)
    (vc : Json) : Except VErr Bool :=
  match preflight offline st vc with
  | .error e => .error e
  | .ok _ =>
    let proofOpt := vc.get "proof"
    if jsOptTruthy proofOpt then verifyProofLoop sp (normalizeProofs proofOpt)
    else .ok false

/-- The `LdpVerifier.verify`: the body wrapped in the outer catch, which
re-throws an error whose message contains the offline sentinel and wraps any
other error in an `UnknownException`. -/
def ldpVerify (offline : Bool) (st : CtxStore) (sp : Json → Except VErr Bool)
    (vc : Json) : Except VErr Bool :=
  match ldpVerifyBody offline st sp vc with
  | .ok b => .ok b
  | .error e =>
    if strContains (vErrMessage e) offlineDepsSentinel then .error e
    else .error (.unknown ("Error during cryptographic verification: " ++ vErrMessage e))

/-! ## `OfflineDocumentLoader.documentLoader` (`OfflineDocumentLoader.ts`) -/

/-- A `fetch` response: HTTP status plus the result of `resp.json()` (which
may reject on an unparseable body). -/
structure FetchResp where
  status : Nat
  body : Except String Json

/-- The `Response.ok`: status in the 2xx range. -/
def respOk (r : FetchResp) : Bool :=
  200 ≤ r.status && r.status < 300

/-- The loader's environment: `canPerformNetworkRequest()`,
`isExplicitlyOffline()`, and the transport (a rejecting `fetch` is
`Except.error`). -/
structure DocLoaderEnv where
  canFetch : Bool
  offline : Bool
  fetch : String → Except String FetchResp

/-- Failures of `documentLoader`. -/
inductive LoadErr where
  | didResolution
  | offlineDeps
  | network (msg : String)
  deriving DecidableEq

/-- The `OfflineDocumentLoader.documentLoader`: DID URLs are rejected; a cached
truthy context is returned as-is; otherwise, when a network attempt is
possible, fetch the exact URL, require `resp.ok` and a parseable JSON body,
cache via `putContexts` and return the document; fetch failures become the
offline sentinel when explicitly offline and propagate otherwise; with no
cache hit and no network the offline sentinel is raised. -/
def documentLoader (env : DocLoaderEnv) (now : Nat) (st : CtxStore) (url : String) :
    Except LoadErr (Json × CtxStore) :=
  if strStartsWith url "did:" then .error .didResolution
  else
    let ctx := getContextJ st url
    if jsTruthy ctx then .ok (ctx, st)
    else if env.canFetch then
      match env.fetch url with
      | .error e => if env.offline then .error .offlineDeps else .error (.network e)
      | .ok resp =>
        if respOk resp then
          match resp.body with
          | .error e => if env.offline then .error .offlineDeps else .error (.network e)
          | .ok document =>
            .ok (document, putContexts now [⟨url, document, none⟩] st)
        else
          if env.offline then .error .offlineDeps
          else .error (.network ("Failed to fetch context: " ++ url))
    else .error .offlineDeps

/-! ## Key-encoding helpers

The implementations live in `publicKey/Utils.ts`, which is not among the
provided sources; each definition below is modelled from the spec's
description of the encodings (§4.4 and §8: multibase carries the Ed25519
multicodec prefix, hex is case-insensitive, base64url tolerates missing
padding, SPKI unwraps to the raw 32 key bytes). -/

/-- Modelled from the spec: hex digit value, case-insensitive
(`publicKey/Utils.ts` is not in the provided sources). -/
def hexDigitVal (c : Char) : Option Nat :=
  if '0' ≤ c ∧ c ≤ '9' then some (c.toNat - '0'.toNat)
  else if 'a' ≤ c ∧ c ≤ 'f' then some (c.toNat - 'a'.toNat + 10)
  else if 'A' ≤ c ∧ c ≤ 'F' then some (c.toNat - 'A'.toNat + 10)
  else none

/-- Modelled from the spec: decode hex digit pairs into bytes; odd length or
a non-hex character is an error. -/
def hexPairs : List Char → Except String (List Nat)
  | [] => .ok []
  | [_] => .error "Invalid hex string"
  | a :: b :: rest =>
    match hexDigitVal a, hexDigitVal b with
    | some x, some y => (hexPairs rest).map fun t => (x * 16 + y) :: t
    | _, _ => .error "Invalid hex string"

/-- Modelled from the spec: `hexToBytes` of `publicKey/Utils.ts`. -/
def hexToBytes (s : String) : Except String (List Nat) :=
  hexPairs s.data

/-- Modelled from the spec: `bytesToHex` of `publicKey/Utils.ts` (lowercase). -/
def bytesToHex (bs : List Nat) : String :=
  String.mk (bs.foldr (fun b acc => Nat.digitChar (b / 16 % 16) :: Nat.digitChar (b % 16) :: acc) [])

/-- Modelled from the spec: base64url digit value (`-` and `_` variants). -/
def b64uVal (c : Char) : Option Nat :=
  if 'A' ≤ c ∧ c ≤ 'Z' then some (c.toNat - 'A'.toNat)
  else if 'a' ≤ c ∧ c ≤ 'z' then some (c.toNat - 'a'.toNat + 26)
  else if '0' ≤ c ∧ c ≤ '9' then some (c.toNat - '0'.toNat + 52)
  else if c = '-' then some 62
  else if c = '_' then some 63
  else none

/-- Modelled from the spec: standard base64 digit value (`+` and `/`), used
for PEM bodies. -/
def b64Val (c : Char) : Option Nat :=
  if 'A' ≤ c ∧ c ≤ 'Z' then some (c.toNat - 'A'.toNat)
  else if 'a' ≤ c ∧ c ≤ 'z' then some (c.toNat - 'a'.toNat + 26)
  else if '0' ≤ c ∧ c ≤ '9' then some (c.toNat - '0'.toNat + 52)
  else if c = '+' then some 62
  else if c = '/' then some 63
  else none

/-- Modelled from the spec: reassemble 6-bit groups into bytes; a final group
of 2 or 3 digits is the missing-padding case the spec requires to be
tolerated, a lone digit is invalid. -/
def b64Quads : List Nat → Except String (List Nat)
  | [] => .ok []
  | [_] => .error "Invalid base64 length"
  | [a, b] => .ok [a * 4 + b / 16]
  | [a, b, c] => .ok [a * 4 + b / 16, b % 16 * 16 + c / 4]
  | a :: b :: c :: d :: rest =>
    (b64Quads rest).map fun t =>
      (a * 4 + b / 16) :: (b % 16 * 16 + c / 4) :: (c % 4 * 64 + d) :: t

/-- Modelled from the spec: `base64UrlDecode` of `publicKey/Utils.ts`
(padding characters stripped, missing padding tolerated). -/
def base64UrlDecode (s : String) : Except String (List Nat) :=
  match (s.data.filter (fun c => !(c == '='))).mapM b64uVal with
  | none => .error "Invalid base64url character"
  | some vs => b64Quads vs

/-- Modelled from the spec: `parsePemToDer` of `publicKey/Utils.ts` — drop
the `-----BEGIN/END-----` lines and base64-decode the body. -/
def parsePemToDer (s : String) : Except String (List Nat) :=
  let lines := (splitOnCharL '\n' s.data).map (fun l => l.filter (fun c => !(c == '\r')))
  let body := (lines.filter (fun l => !listHasPrefix l "-----".data)).flatten
  match body.mapM b64Val with
  | none => .error "Invalid PEM body"
  | some vs => b64Quads vs

/-- Modelled from the spec: `spkiToRawEd25519` of `publicKey/Utils.ts` —
unwrap an SPKI blob to its trailing raw 32 key bytes. -/
def spkiToRawEd25519 (bytes : List Nat) : Except String (List Nat) :=
  if bytes.length < 32 then .error "Invalid Ed25519 SPKI"
  else .ok (bytes.drop (bytes.length - 32))

/-- The base58btc alphabet. -/
def b58Alphabet : List Char :=
  "123456789ABCDEFGHJKLMNPQRSTUVWXYZabcdefghijkmnopqrstuvwxyz".data

/-- Big-endian byte interpretation. -/
def bytesBEToNat (bs : List Nat) : Nat :=
  bs.foldl (fun acc b => acc * 256 + b) 0

/-- Base-58 digits of `n`, most significant first. -/
def base58Digits (n : Nat) : List Nat :=
  if h : n = 0 then []
  else
    have : n / 58 < n := Nat.div_lt_self (Nat.pos_of_ne_zero h) (by omega)
    base58Digits (n / 58) ++ [n % 58]
termination_by n

/-- Leading zero bytes (each becomes a `'1'` in base58btc). -/
def countLeadingZeroBytes : List Nat → Nat
  | [] => 0
  | b :: rest => if b = 0 then countLeadingZeroBytes rest + 1 else 0

/-- Modelled from the spec: base58btc encoding of a byte string. -/
def base58btc (bs : List Nat) : String :=
  String.mk (List.replicate (countLeadingZeroBytes bs) '1'
    ++ (base58Digits (bytesBEToNat bs)).map (fun d => b58Alphabet.getD d '1'))

/-- Modelled from the spec: `ed25519RawToMultibase` of `publicKey/Utils.ts` —
prepend the Ed25519 multicodec prefix `0xed 0x01` and base58btc-encode with
the `z` multibase prefix. -/
def ed25519RawToMultibase (raw : List Nat) : String :=
  "z" ++ base58btc (237 :: 1 :: raw)

/-! ## `PublicKeyService.getPublicKey` (`PublicKeyService.ts`) -/

/-- The key material a scheme-specific getter returns
(`PublicKeyGetterFactory().get`); the fields are the ones
`PublicKeyService` inspects. -/
structure PublicKeyData where
  keyType : Option String
  jwk : Option Json
  ecUncompressedHex : Option String
  bytes : Option (List Nat)
  algorithm : Option String
  pem : Option String

/-- The canonical key view `getPublicKey` returns to the verifier. -/
structure KeyView where
  id : String
  type : String
  controller : String
  publicKeyMultibase : Option String
  publicKeyJwk : Option Json
  publicKeyHex : Option String

/-- The environment of `PublicKeyService`: `canPerformNetworkRequest()` and
the online getter (network DID/document resolution, which is external I/O;
a rejecting getter is `Except.error`). -/
structure PKEnv where
  canNetwork : Bool
  getter : String → Except String PublicKeyData

/-- The `isIncomplete` of `getPublicKey`: no truthy multibase, JWK or hex
material. -/
def isIncomplete (r : PublicKeyRecord) : Bool :=
  !strTruthy r.public_key_multibase && !jsOptTruthy r.public_key_jwk
    && !strTruthy r.public_key_hex

/-- The `rec?.public_key_… ` on a possibly-absent record: an absent record is
incomplete. -/
def isIncompleteOpt : Option PublicKeyRecord → Bool
  | none => true
  | some r => isIncomplete r

/-- The `jwk?.kty === 'OKP' && jwk?.crv === 'Ed25519' && jwk?.x` on a
possibly-absent JWK. -/
def jwkIsOkpEd (o : Option Json) : Bool :=
  match o with
  | some (Json.jobj fields) =>
    (match jsonGetField fields "kty" with
      | some (Json.jstr s) => s == "OKP"
      | _ => false)
    && (match jsonGetField fields "crv" with
      | some (Json.jstr s) => s == "Ed25519"
      | _ => false)
    && jsOptTruthy (jsonGetField fields "x")
  | _ => false

/-- The `x` coordinate of a JWK as the string handed to `base64UrlDecode`
(a non-string `x` is not given a coercion — no code path under proof
produces one). -/
def jwkXStr (o : Option Json) : String :=
  match o with
  | some (Json.jobj fields) =>
    match jsonGetField fields "x" with
    | some (Json.jstr s) => s
    | _ => ""
  | _ => ""

/-- The `controller.split('did:key:')[1]` under the `startsWith('did:key:')`
guard: the characters after the prefix up to the next occurrence of the
separator. -/
def didKeyTail (controller : String) : String :=
  String.mk (takeUntilSub "did:key:".data (controller.data.drop 8))

/-- The online-resolution block of `getPublicKey` (inside its inner `try`):
run the scheme getter, normalize the material into multibase / JWK / hex
(with the Ed25519 derivation chain), and persist the record as active via
`putPublicKeys`.  Any thrown error is the `Except.error` case. -/
def onlineResolveStore (env : PKEnv) (vm : String) (st : KeyStore) :
    Except String KeyStore :=
  match env.getter vm with
  | .error e => .error e
  | .ok pk =>
    let controller := beforeHash vm
    let mb0 : Option String :=
      if strStartsWith controller "did:key:" then some (didKeyTail controller) else none
    let hex1 : Option String :=
      if !strTruthy pk.ecUncompressedHex && pk.bytes.isSome
          && (pk.algorithm == some "secp256k1") then
        some (bytesToHex (pk.bytes.getD []))
      else pk.ecUncompressedHex
    let inEd : Bool := !strTruthy mb0 && (pk.algorithm == some "Ed25519")
    let mb1 : Option String :=
      if inEd && pk.bytes.isSome then
        match spkiToRawEd25519 (pk.bytes.getD []) with
        | .ok raw => some (ed25519RawToMultibase raw)
        | .error _ => mb0
      else mb0
    let mb2 : Option String :=
      if inEd && !strTruthy mb1 && strTruthy pk.pem then
        match parsePemToDer (pk.pem.getD "") with
        | .ok der =>
          match spkiToRawEd25519 der with
          | .ok raw => some (ed25519RawToMultibase raw)
          | .error _ => mb1
        | .error _ => mb1
      else mb1
    let mb3 : Option String :=
      if inEd && !strTruthy mb2 && jwkIsOkpEd pk.jwk then
        match base64UrlDecode (jwkXStr pk.jwk) with
        | .ok raw => some (ed25519RawToMultibase raw)
        | .error _ => mb2
      else mb2
    putPublicKeys
      [{ key_id := vm, key_type := pk.keyType, public_key_multibase := mb3
         public_key_hex := hex1, public_key_jwk := pk.jwk, controller := controller
         purpose := some "assertion", is_active := some true, organization_id := none }]
      st

/-- The `PublicKeyService.deriveEd25519Multibase`: derive multibase from a JWK
`x` coordinate, else from hex-encoded SPKI material; any failure is caught
and becomes `undefined`. -/
def deriveEd25519Multibase (r : PublicKeyRecord) : Option String :=
  if jwkIsOkpEd r.public_key_jwk then
    match base64UrlDecode (jwkXStr r.public_key_jwk) with
    | .ok raw => some (ed25519RawToMultibase raw)
    | .error _ => none
  else if r.public_key_hex.isSome then
    match hexToBytes (r.public_key_hex.getD "") with
    | .ok bytes =>
      match spkiToRawEd25519 bytes with
      | .ok raw => some (ed25519RawToMultibase raw)
      | .error _ => none
    | .error _ => none
  else none

/-- Rebuild the `CachedPublicKey` the multibase backfill persists from the
stored record (the stored fields are already normalized). -/
def recordToCached (r : PublicKeyRecord) : CachedPublicKey :=
  { key_id := r.key_id, key_type := some r.key_type
    public_key_multibase := r.public_key_multibase
    public_key_hex := r.public_key_hex, public_key_jwk := r.public_key_jwk
    controller := r.controller, purpose := some r.purpose
    is_active := some r.is_active, organization_id := r.organization_id }

/-- The key view returned to the verifier (`record.key_type` is always set
on stored records, so the `?? 'Ed25519VerificationKey2020'` default never
fires). -/
def toKeyView (r : PublicKeyRecord) : KeyView :=
  { id := r.key_id, type := r.key_type, controller := r.controller
    publicKeyMultibase := r.public_key_multibase
    publicKeyJwk := r.public_key_jwk, publicKeyHex := r.public_key_hex }

/-- The tail of `getPublicKey` after a record is (possibly) resolved: the
null-check, the `is_active === false` gate, the Ed25519 multibase backfill
(whose persistence failure is caught and ignored), and the key view. -/
def finishGetPublicKey : Option PublicKeyRecord → KeyStore → Option KeyView × KeyStore
  | none, st => (none, st)
  | some r, st =>
    if r.is_active = false then (none, st)
    else if !strTruthy r.public_key_multibase && strContains r.key_type "Ed25519" then
      match deriveEd25519Multibase r with
      | some mb =>
        let r' := { r with public_key_multibase := some mb }
        let st' :=
          match putPublicKeys [recordToCached r'] st with
          | .ok s => s
          | .error _ => st
        (some (toKeyView r'), st')
      | none => (some (toKeyView r), st)
    else (some (toKeyView r), st)

/-- The `PublicKeyService.getPublicKey`: cache lookup; a missing or incomplete
record triggers the online fallback when a network request is possible (any
resolution error is caught and becomes `null`); the resolved record is then
re-read and passed through the activity gate and backfill.  The outer catch
of the source converts any remaining error to `null` as well; no modelled
operation below it throws, so the function is total. -/
def getPublicKey (env : PKEnv) (st : KeyStore) (vm : String) :
    Option KeyView × KeyStore :=
  if isIncompleteOpt (getKeyById st vm) then
    if env.canNetwork then
      match onlineResolveStore env vm st with
      | .error _ => (none, st)
      | .ok st1 => finishGetPublicKey (getKeyById st1 vm) st1
    else (none, st)
  else finishGetPublicKey (getKeyById st vm) st

/-! ## `DidWebPublicKeyGetter.get` (did:web resolution) -/

/-- The character class `[a-zA-Z0-9.-]` of the did:web domain regex. -/
def didWebChar (c : Char) : Bool :=
  c.isAlphanum || c == '.' || c == '-'

/-- Rejoin the colon-separated groups after the domain: the `(.+)` capture of
the did:web regex. -/
def joinColon : List (List Char) → List Char
  | [] => []
  | [g] => g
  | g :: gs => g ++ ':' :: joinColon gs

/-- The regex `^did:web:([a-zA-Z0-9.-]+)(?::(.+))?$` as a parser: the domain
is the maximal run of class characters (the class excludes `:`), an optional
`:`-prefixed non-empty path follows (`.` does not match line terminators, so
a path containing one fails the match). -/
def parseDidWeb (s : String) : Option (String × Option String) :=
  if strStartsWith s "did:web:" then
    match splitOnCharL ':' (s.data.drop 8) with
    | [] => none
    | domain :: pathParts =>
      if domain.isEmpty || !domain.all didWebChar then none
      else if pathParts.isEmpty then some (String.mk domain, none)
      else
        let path := joinColon pathParts
        if path.isEmpty || path.any (fun c => c == '\n' || c == '\r') then none
        else some (String.mk domain, some (String.mk path))
  else none

/-- The DID-document URL: `https://<domain>/<path with : → / >/did.json`, or
`.well-known/did.json` without a path. -/
def didWebUrl (domain : String) (path : Option String) : String :=
  match path with
  | some p =>
    "https://" ++ domain ++ "/"
      ++ String.mk (p.data.map fun c => if c == ':' then '/' else c) ++ "/did.json"
  | none => "https://" ++ domain ++ "/.well-known/did.json"

/-- A verification-method entry of a fetched DID document (the fields
`DidWebPublicKeyGetter.get` inspects). -/
structure VMEntry where
  id : String
  type : Option String
  publicKeyPem : Option String
  publicKeyMultibase : Option String
  publicKeyJwk : Option Json
  publicKeyHex : Option String

/-- A fetched DID document (`doc.verificationMethod || []`). -/
structure DidDoc where
  verificationMethod : List VMEntry

/-- The getter's transport: `fetchPublicDocument` is not among the provided
sources; modelled from the spec as an HTTP GET returning the parsed DID
document (rejection is `Except.error`). -/
structure DidWebEnv where
  fetchDoc : String → Except String DidDoc

/-- Modelled from the spec: the key-material conversions
(`getPublicKeyFromPem` / `…Multibase` / `…Jwk` / `…Hex` of
`publicKey/Utils.ts`, not among the provided sources) normalize the given
material into the canonical key representation; each result records
injectively which encoding was consumed and with which arguments. -/
inductive DidWebKeyData where
  | fromPem (pem : String) (vmType : Option String) (vmId : String)
  | fromMultibase (multibase : String) (vmType : Option String) (vmId : String)
  | fromJwk (jwk : Json) (vmType : Option String) (vmId : String)
  | fromHex (hex : String) (vmType : Option String) (vmId : String)

/-- The `DidWebPublicKeyGetter.get`: parse the base DID, fetch the DID document,
locate the verification-method entry by exact id, then extract key material
preferring PEM, then multibase, then JWK, then hex (first truthy wins); an
entry with none of the four encodings is the unsupported-key-type error. -/
def didWebGet (env : DidWebEnv) (vm : String) : Except String DidWebKeyData :=
  match parseDidWeb (beforeHash vm) with
  | none => .error "Invalid did:web"
  | some (domain, path) =>
    match env.fetchDoc (didWebUrl domain path) with
    | .error e => .error e
    | .ok doc =>
      match doc.verificationMethod.find? (fun x => x.id == vm) with
      | none => .error "Verification method not found in DID document"
      | some entry =>
        if strTruthy entry.publicKeyPem then
          .ok (.fromPem (entry.publicKeyPem.getD "") entry.type vm)
        else if strTruthy entry.publicKeyMultibase then
          .ok (.fromMultibase (entry.publicKeyMultibase.getD "") entry.type vm)
        else if jsOptTruthy entry.publicKeyJwk then
          .ok (.fromJwk (entry.publicKeyJwk.getD Json.jnull) entry.type vm)
        else if strTruthy entry.publicKeyHex then
          .ok (.fromHex (entry.publicKeyHex.getD "") entry.type vm)
        else .error "Public Key type is not supported"

/-! ## Concrete instances used by counterexamples and witnesses -/

/-- The verification-method identifier of the C3 scenario. -/
def vmC3 : String := "did:web:example.com#key-1"

/-- A cached record that is inactive *and* lacks all key material. -/
def recC3 : PublicKeyRecord :=
  { key_id := vmC3, key_type := "Ed25519VerificationKey2020"
    public_key_multibase := none, public_key_hex := none, public_key_jwk := none
    controller := "did:web:example.com", purpose := "assertion"
    is_active := false, organization_id := none }

/-- An online environment whose getter resolves a secp256k1 key. -/
def envC3 : PKEnv :=
  { canNetwork := true
    getter := fun _ =>
      .ok { keyType := some "EcdsaSecp256k1VerificationKey2019", jwk := none
            ecUncompressedHex := some "04ab", bytes := none
            algorithm := some "secp256k1", pem := none } }

/-- The key store holding only the inactive, material-less record. -/
def stC3 : KeyStore := storePut vmC3 recC3 emptyStore

/-- An online environment whose getter rejects (network I/O failure). -/
def envC4 : PKEnv :=
  { canNetwork := true, getter := fun _ => .error "network unreachable" }

/-- A complete but inactive cached record. -/
def recC3ok : PublicKeyRecord :=
  { key_id := "did:web:ex#k", key_type := "Ed25519VerificationKey2020"
    public_key_multibase := some "zComplete", public_key_hex := none
    public_key_jwk := none, controller := "did:web:ex", purpose := "assertion"
    is_active := false, organization_id := none }

/-- First upsert input of the C5 scenario. -/
def keyAC5 : CachedPublicKey :=
  { key_id := "k1", key_type := none, public_key_multibase := some "zA"
    public_key_hex := none, public_key_jwk := none, controller := "ctrlA"
    purpose := none, is_active := some false, organization_id := some "orgA" }

/-- Second upsert input of the C5 scenario (same `key_id`). -/
def keyBC5 : CachedPublicKey :=
  { key_id := "k1", key_type := some "T", public_key_multibase := none
    public_key_hex := some "beef", public_key_jwk := none
    controller := "ctrlB#frag", purpose := some "auth", is_active := none
    organization_id := none }

/-- A valid `putPublicKeys` input record. -/
def goodKeyC7 : CachedPublicKey :=
  { key_id := "did:web:ex#k1", key_type := none
    public_key_multibase := some "zMb", public_key_hex := none
    public_key_jwk := none, controller := "did:web:ex", purpose := none
    is_active := none, organization_id := none }

/-- A loader environment that is online and serves a parseable context. -/
def envC8 : DocLoaderEnv :=
  { canFetch := true, offline := false
    fetch := fun _ => .ok { status := 200, body := .ok (Json.jstr "ctx-document") } }

/-- A DID document with one entry carrying two encodings (multibase and JWK,
plus hex) and no PEM. -/
def docC9 : DidDoc :=
  { verificationMethod :=
      [{ id := "did:web:example.com#key-1", type := some "Ed25519VerificationKey2020"
         publicKeyPem := none, publicKeyMultibase := some "zMulti"
         publicKeyJwk := some (Json.jobj [("kty", Json.jstr "OKP")])
         publicKeyHex := some "deadbeef" }] }

/-- A did:web environment serving `docC9`. -/
def envC9 : DidWebEnv := { fetchDoc := fun _ => .ok docC9 }

/-! ## Store lemmas -/

/-- The last record of `records` that is valid and keyed at `k` (the one a
JS insertion loop leaves under `k`). -/
def lastMatch {α : Type} (valid : α → Bool) (key : α → String) (k : String) :
    List α → Option α
  | [] => none
  | a :: rest =>
    match lastMatch valid key k rest with
    | some b => some b
    | none => if valid a && (key a == k) then some a else none

theorem insertAll_lookup {α R : Type} (valid : α → Bool) (key : α → String)
    (norm : α → R) (records : List α) (st : Store R) (k : String) :
    insertAll valid key norm records st k =
      match lastMatch valid key k records with
      | some a => some (norm a)
      | none => st k := by
  induction records generalizing st with
  | nil => rfl
  | cons a rest ih =>
    show insertAll valid key norm rest
        (if valid a then storePut (key a) (norm a) st else st) k = _
    rw [ih]
    cases hlm : lastMatch valid key k rest with
    | some b => simp [lastMatch, hlm]
    | none =>
      simp only [lastMatch, hlm]
      by_cases hv : valid a = true
      · by_cases hk : key a = k
        · simp [hv, hk, storePut]
        · simp [hv, hk, storePut, Ne.symm hk]
      · rw [Bool.not_eq_true] at hv
        simp [hv]

theorem optFilter_idem {R : Type} (p : R → Bool) (o : Option R) :
    (o.filter p).filter p = o.filter p := by
  cases o with
  | none => rfl
  | some a =>
    by_cases hp : p a = true
    · simp [Option.filter, hp]
    · simp [Option.filter, hp]

/-- A delete-then-insert replace, run twice with the same records, leaves
every key's lookup as a single run does (the insertion normalizers of the
two runs may differ: for contexts they carry different timestamps). -/
theorem replace_twice_lookup {α R : Type} (valid : α → Bool) (key : α → String)
    (norm1 norm2 : α → R) (keep : R → Bool) (records : List α) (s : Store R)
    (k : String) :
    insertAll valid key norm2 records
        (storeFilter keep (insertAll valid key norm1 records (storeFilter keep s))) k
      = insertAll valid key norm2 records (storeFilter keep s) k := by
  rw [insertAll_lookup, insertAll_lookup]
  cases hlm : lastMatch valid key k records with
  | some a => rfl
  | none =>
    show (storeFilter keep (insertAll valid key norm1 records (storeFilter keep s))) k
      = (storeFilter keep s) k
    unfold storeFilter
    rw [insertAll_lookup, hlm]
    exact optFilter_idem keep (s k)

/-! ## C5 — upsert determinism of `putPublicKeys` -/

/-- C5: for key records A and B sharing `key_id` K, `put([A])` then
`put([B])` leaves the record stored under K equal to the normalization of B
alone — last write wins, nothing of A survives. -/
theorem putPublicKeys_last_write_wins (A B : CachedPublicKey) (K : String)
    (s s1 s2 : KeyStore) (hA : A.key_id = K) (hB : B.key_id = K)
    (h1 : putPublicKeys [A] s = .ok s1) (h2 : putPublicKeys [B] s1 = .ok s2) :
    getKeyById s2 K = some (normalizeCachedKey B) := by
  unfold putPublicKeys putPublicKeysFold at h2
  by_cases hv : (B.key_id.data.isEmpty || B.controller.data.isEmpty) = true
  · simp [hv] at h2
  · simp [hv, putPublicKeysFold] at h2
    subst h2
    simp [getKeyById, storePut, hB]

/-- Witness for C5 at concrete records: B's stored image is exactly B's
normalization. -/
theorem putPublicKeys_last_write_wins_witness :
    keyAC5.key_id = "k1" ∧ keyBC5.key_id = "k1"
    ∧ putPublicKeys [keyAC5] emptyStore
        = .ok (storePut "k1" (normalizeCachedKey keyAC5) emptyStore)
    ∧ putPublicKeys [keyBC5]
          (storePut "k1" (normalizeCachedKey keyAC5) emptyStore)
        = .ok (storePut "k1" (normalizeCachedKey keyBC5)
            (storePut "k1" (normalizeCachedKey keyAC5) emptyStore))
    ∧ getKeyById
        (storePut "k1" (normalizeCachedKey keyBC5)
          (storePut "k1" (normalizeCachedKey keyAC5) emptyStore)) "k1"
      = some (normalizeCachedKey keyBC5) :=
  ⟨rfl, rfl, rfl, rfl,
    putPublicKeys_last_write_wins keyAC5 keyBC5 "k1" emptyStore
      (storePut "k1" (normalizeCachedKey keyAC5) emptyStore)
      (storePut "k1" (normalizeCachedKey keyBC5)
        (storePut "k1" (normalizeCachedKey keyAC5) emptyStore))
      rfl rfl rfl rfl⟩

/-! ## C6 — idempotence of the organization-scoped replace -/

/-- C6 (amended): running `replaceForOrganization` twice with the same
records is lookup-idempotent on the public-key and revoked-VC tables, and on
the context table the double run equals a single run performed at the second
run's clock reading — the `cachedAt` timestamp is the only deviation from
plain idempotence. -/
theorem replaceForOrganization_idem (org : String) (t1 t2 : Nat)
    (contexts : List (String × Json)) (publicKeys : List CachedPublicKey)
    (revokedVCs : List CachedRevokedVC) (cs : CtxStore) (ks : KeyStore)
    (rs : RevokedStore) (k : String) :
    replacePublicKeysForOrganization org publicKeys
        (replacePublicKeysForOrganization org publicKeys ks) k
      = replacePublicKeysForOrganization org publicKeys ks k
    ∧ replaceRevokedVCsForOrganization org revokedVCs
        (replaceRevokedVCsForOrganization org revokedVCs rs) k
      = replaceRevokedVCsForOrganization org revokedVCs rs k
    ∧ replaceContextsForOrganization t2 org contexts
        (replaceContextsForOrganization t1 org contexts cs) k
      = replaceContextsForOrganization t2 org contexts cs k := by
  refine ⟨?_, ?_, ?_⟩
  · exact replace_twice_lookup _ _ _ _ _ publicKeys ks k
  · exact replace_twice_lookup _ _ _ _ _ revokedVCs rs k
  · exact replace_twice_lookup _ _ _ _ _ contexts cs k

/-- Counterexample to C6 as stated: with time advancing between the two
calls (`Date.now()` readings 0 and 1), the context table after the double
replace differs observably from the table after a single call — the stored
`cachedAt` is 1 instead of 0. -/
theorem replaceContexts_twice_differs :
    ((replaceContextsForOrganization 1 "o" [("u", Json.jstr "d")]
        (replaceContextsForOrganization 0 "o" [("u", Json.jstr "d")] emptyStore)) "u").map
        (fun r => r.cachedAt)
      ≠ ((replaceContextsForOrganization 0 "o" [("u", Json.jstr "d")] emptyStore) "u").map
        (fun r => r.cachedAt) := by
  decide

/-! ## C7 — backing-store write failures -/

theorem putPublicKeysFold_total (keys : List CachedPublicKey) (st : KeyStore)
    (hvalid : ∀ k ∈ keys, k.key_id.data.isEmpty = false ∧ k.controller.data.isEmpty = false) :
    ∃ st', putPublicKeysFold keys st = .ok st' := by
  induction keys generalizing st with
  | nil => exact ⟨st, rfl⟩
  | cons a rest ih =>
    have ha := hvalid a (List.mem_cons_self a rest)
    have hrest : ∀ k ∈ rest, k.key_id.data.isEmpty = false ∧ k.controller.data.isEmpty = false :=
      fun k hk => hvalid k (List.mem_cons_of_mem a hk)
    rw [putPublicKeysFold]
    simp only [ha.1, ha.2, Bool.or_self, Bool.false_eq_true, if_false]
    exact ih _ hrest

/-- Counterexample to C7: with a failing backing store, `putPublicKeys` of a
valid record *resolves successfully* and the persisted data is unchanged
(still absent) — the failure is not reported and the write is silently
dropped. -/
theorem putPublicKeys_write_failure_silent :
    putPublicKeysStored [goodKeyC7] { data := none, failWrites := true }
      = .ok { data := none, failWrites := true } := rfl

/-- C7 (amended): `writeJson` catches and logs backing-store write failures,
so any `put` whose input validation passes resolves successfully even when
every backing write fails, leaving the persisted table unchanged — callers
cannot observe the lost write from the operation's outcome. -/
theorem putPublicKeys_backing_failure_silent (keys : List CachedPublicKey)
    (s : BackingSlot KeyStore) (hfail : s.failWrites = true)
    (hvalid : ∀ k ∈ keys, k.key_id.data.isEmpty = false ∧ k.controller.data.isEmpty = false) :
    putPublicKeysStored keys s = .ok s := by
  unfold putPublicKeysStored
  by_cases he : keys.isEmpty = true
  · simp [he]
  · obtain ⟨st', hst'⟩ := putPublicKeysFold_total keys (readJson emptyStore s) hvalid
    simp only [he, Bool.false_eq_true, if_false, hst', writeJson, setItem, hfail, if_true]

/-- Witness for C7 (amended) at a concrete record and failing slot. -/
theorem putPublicKeys_backing_failure_silent_witness :
    ({ data := some emptyStore, failWrites := true } : BackingSlot KeyStore).failWrites = true
    ∧ putPublicKeysStored [goodKeyC7] { data := some emptyStore, failWrites := true }
        = .ok { data := some emptyStore, failWrites := true } :=
  ⟨rfl,
    putPublicKeys_backing_failure_silent [goodKeyC7]
      { data := some emptyStore, failWrites := true } rfl (by decide)⟩

/-! ## C1 — all proofs must verify -/

theorem verifyProofLoop_all (sp : Json → Except VErr Bool) (f : Json → Bool)
    (ps : List Json) (h : ∀ p ∈ ps, sp p = .ok (f p)) :
    verifyProofLoop sp ps = .ok (ps.all f) := by
  induction ps with
  | nil => rfl
  | cons p rest ih =>
    have hp : sp p = .ok (f p) := h p (List.mem_cons_self p rest)
    have hrest : ∀ q ∈ rest, sp q = .ok (f q) := fun q hq => h q (List.mem_cons_of_mem p hq)
    rw [verifyProofLoop, hp]
    cases hf : f p with
    | false => simp [List.all_cons, hf]
    | true => simp [List.all_cons, hf, ih hrest]

/-- C1: whenever the offline preflight passes, the `proof` field is present
(truthy), and every proof's individual verification completes with a boolean
outcome `f p`, `verify` returns exactly the conjunction of the per-proof
outcomes over the normalized proof list: `true` iff every proof verifies,
`false` as soon as any fails — and the early-exit result coincides with
evaluating all proofs. -/
theorem ldpVerify_all_proofs (offline : Bool) (st : CtxStore)
    (sp : Json → Except VErr Bool) (f : Json → Bool) (vc : Json)
    (hpre : preflight offline st vc = .ok ())
    (hproof : jsOptTruthy (vc.get "proof") = true)
    (hsp : ∀ p ∈ normalizeProofs (vc.get "proof"), sp p = .ok (f p)) :
    ldpVerify offline st sp vc = .ok ((normalizeProofs (vc.get "proof")).all f) := by
  have hbody : ldpVerifyBody offline st sp vc
      = .ok ((normalizeProofs (vc.get "proof")).all f) := by
    unfold ldpVerifyBody
    rw [hpre]
    simp only [hproof, if_true]
    exact verifyProofLoop_all sp f _ hsp
  unfold ldpVerify
  rw [hbody]

/-- Witness for C1: two proofs, both individually valid, aggregate `true`. -/
theorem ldpVerify_all_proofs_witness :
    preflight false emptyStore
        (Json.jobj [("proof", Json.jarr [Json.jobj [("type", Json.jstr "Ed25519Signature2020")], Json.jobj []])])
      = .ok ()
    ∧ jsOptTruthy ((Json.jobj [("proof", Json.jarr [Json.jobj [("type", Json.jstr "Ed25519Signature2020")], Json.jobj []])]).get "proof") = true
    ∧ ldpVerify false emptyStore (fun _ => .ok true)
        (Json.jobj [("proof", Json.jarr [Json.jobj [("type", Json.jstr "Ed25519Signature2020")], Json.jobj []])])
      = .ok true :=
  ⟨rfl, rfl,
    ldpVerify_all_proofs false emptyStore (fun _ => .ok true) (fun _ => true)
      (Json.jobj [("proof", Json.jarr [Json.jobj [("type", Json.jstr "Ed25519Signature2020")], Json.jobj []])])
      rfl rfl (fun _ _ => rfl)⟩

/-! ## C2 — offline preflight on missing contexts -/

theorem checkUrls_missing (st : CtxStore) (urls : List String) (u : String)
    (hu : u ∈ urls) (hmiss : jsTruthy (getContextJ st u) = false) :
    checkUrls st urls = .error .offlineDeps := by
  induction urls with
  | nil => cases hu
  | cons v rest ih =>
    rw [checkUrls]
    by_cases hv : jsTruthy (getContextJ st v) = true
    · rw [if_pos hv]
      rcases List.mem_cons.mp hu with h | h
      · subst h; rw [hv] at hmiss; cases hmiss
      · exact ih h
    · rw [if_neg hv]

theorem sentinel_contains_self :
    strContains (vErrMessage VErr.offlineDeps) offlineDepsSentinel = true := by decide

/-- C2: when the runtime is explicitly offline and some string `@context`
entry of the credential is absent from the context cache, `verify` raises
the offline-missing-dependencies condition — for *every* per-proof verifier,
i.e. before any cryptographic proof check can influence the outcome. -/
theorem ldpVerify_offline_missing_context (st : CtxStore)
    (sp : Json → Except VErr Bool) (vc : Json) (u : String)
    (hu : u ∈ ctxUrlList vc) (hmiss : st u = none) :
    ldpVerify true st sp vc = .error .offlineDeps := by
  have hm : jsTruthy (getContextJ st u) = false := by
    unfold getContextJ
    rw [hmiss]
    rfl
  have hpre : preflight true st vc = .error .offlineDeps := by
    unfold preflight
    rw [if_pos rfl]
    exact checkUrls_missing st (ctxUrlList vc) u hu hm
  unfold ldpVerify ldpVerifyBody
  rw [hpre]
  simp only [sentinel_contains_self, if_true]

/-- Witness for C2: one uncached context URL, a per-proof verifier that
would accept — the offline error still wins. -/
theorem ldpVerify_offline_missing_context_witness :
    "https://www.w3.org/ns/credentials/v2"
        ∈ ctxUrlList (Json.jobj [("@context", Json.jarr [Json.jstr "https://www.w3.org/ns/credentials/v2"]), ("proof", Json.jobj [])])
    ∧ emptyStore "https://www.w3.org/ns/credentials/v2" = (none : Option ContextRecord)
    ∧ ldpVerify true emptyStore (fun _ => .ok true)
        (Json.jobj [("@context", Json.jarr [Json.jstr "https://www.w3.org/ns/credentials/v2"]), ("proof", Json.jobj [])])
      = .error .offlineDeps :=
  ⟨by decide, rfl,
    ldpVerify_offline_missing_context emptyStore (fun _ => .ok true)
      (Json.jobj [("@context", Json.jarr [Json.jstr "https://www.w3.org/ns/credentials/v2"]), ("proof", Json.jobj [])])
      "https://www.w3.org/ns/credentials/v2" (by decide) rfl⟩

/-! ## C10 — empty proof array -/

/-- C10: a present-but-empty `proof` array passes the falsy-check (`[]` is
truthy in JS), the per-proof loop runs zero times, and — whenever the
offline preflight passes — `verify` vacuously returns `true` rather than
failing as "no proof to verify". -/
theorem ldpVerify_empty_proof_array (offline : Bool) (st : CtxStore)
    (sp : Json → Except VErr Bool) (vc : Json)
    (hpre : preflight offline st vc = .ok ())
    (hproof : vc.get "proof" = some (Json.jarr [])) :
    ldpVerify offline st sp vc = .ok true := by
  unfold ldpVerify ldpVerifyBody
  rw [hpre, hproof]
  rfl

/-- Witness for C10: `proof: []` verifies as `true`. -/
theorem ldpVerify_empty_proof_array_witness :
    preflight false emptyStore (Json.jobj [("proof", Json.jarr [])]) = .ok ()
    ∧ (Json.jobj [("proof", Json.jarr [])]).get "proof" = some (Json.jarr [])
    ∧ ldpVerify false emptyStore (fun _ => .error (.unknown "never called"))
        (Json.jobj [("proof", Json.jarr [])])
      = .ok true :=
  ⟨rfl, rfl,
    ldpVerify_empty_proof_array false emptyStore (fun _ => .error (.unknown "never called"))
      (Json.jobj [("proof", Json.jarr [])]) rfl rfl⟩

/-! ## C3 — inactive keys -/

/-- Counterexample to C3: a cached record that is inactive *and* lacks all
of multibase/JWK/hex fails the completeness check *before* the
`is_active === false` gate is reached, so with network available the service
falls through to the online fetch: the call returns a usable key (not null)
and re-persists the record with `is_active = true`, although the cached
record was inactive. -/
theorem getPublicKey_inactive_incomplete_refetches :
    (getPublicKey envC3 stC3 vmC3).1.isSome = true
    ∧ ((getPublicKey envC3 stC3 vmC3).2 vmC3).map (fun r => r.is_active) = some true
    ∧ (stC3 vmC3).map (fun r => r.is_active) = some false :=
  ⟨rfl, rfl, rfl⟩

/-- C3 (amended): for every cached record with `is_active = false` that
carries at least one piece of key material (multibase, JWK or hex — i.e. is
not "incomplete"), `getPublicKey` reports the key as not usable (`null`) and
leaves the store untouched; records lacking *all* key material are treated
as cache misses and may fall through to an online fetch that re-persists the
key as active. -/
theorem getPublicKey_inactive_complete_null (env : PKEnv) (st : KeyStore)
    (vm : String) (r : PublicKeyRecord) (hrec : st vm = some r)
    (hinact : r.is_active = false) (hcomplete : isIncomplete r = false) :
    getPublicKey env st vm = (none, st) := by
  unfold getPublicKey getKeyById
  rw [hrec]
  simp [isIncompleteOpt, hcomplete, finishGetPublicKey, hinact]

/-- Witness for C3 (amended): a complete inactive record resolves to null
even with the network available. -/
theorem getPublicKey_inactive_complete_null_witness :
    storePut "did:web:ex#k" recC3ok emptyStore "did:web:ex#k" = some recC3ok
    ∧ recC3ok.is_active = false
    ∧ isIncomplete recC3ok = false
    ∧ getPublicKey envC3 (storePut "did:web:ex#k" recC3ok emptyStore) "did:web:ex#k"
        = (none, storePut "did:web:ex#k" recC3ok emptyStore) :=
  ⟨rfl, rfl, rfl,
    getPublicKey_inactive_complete_null envC3
      (storePut "did:web:ex#k" recC3ok emptyStore) "did:web:ex#k" recC3ok rfl rfl rfl⟩

/-! ## C4 — errors versus null -/

/-- Counterexample to C4: when the cache has no record and the online getter
fails with an I/O error, `getPublicKey` catches the error and returns null —
the same observable outcome as a truly absent key (offline, empty cache), so
callers cannot distinguish the two, and no error propagates. -/
theorem getPublicKey_io_error_returns_null :
    getPublicKey envC4 emptyStore "did:web:example.com#key-1"
      = (none, (emptyStore : KeyStore))
    ∧ getPublicKey { canNetwork := false, getter := fun _ => .error "network unreachable" }
        emptyStore "did:web:example.com#key-1"
      = (none, (emptyStore : KeyStore)) :=
  ⟨rfl, rfl⟩

/-- C4 (amended): `getPublicKey` returns null both when no key can be
resolved and when online resolution fails with an I/O error — every error on
the resolution path is caught and converted to null rather than propagated,
so the null outcome does not distinguish "key truly absent" from "I/O
error". -/
theorem getPublicKey_online_error_null (env : PKEnv) (st : KeyStore)
    (vm : String) (e : String)
    (hmiss : isIncompleteOpt (getKeyById st vm) = true)
    (hnet : env.canNetwork = true) (herr : env.getter vm = .error e) :
    getPublicKey env st vm = (none, st) := by
  unfold getPublicKey
  rw [hmiss]
  simp only [if_true, hnet, onlineResolveStore, herr]

/-- Witness for C4 (amended): a rejecting getter yields null. -/
theorem getPublicKey_online_error_null_witness :
    isIncompleteOpt (getKeyById emptyStore "did:web:example.com#key-1") = true
    ∧ envC4.canNetwork = true
    ∧ envC4.getter "did:web:example.com#key-1" = .error "network unreachable"
    ∧ getPublicKey envC4 emptyStore "did:web:example.com#key-1"
        = (none, (emptyStore : KeyStore)) :=
  ⟨rfl, rfl, rfl,
    getPublicKey_online_error_null envC4 emptyStore "did:web:example.com#key-1"
      "network unreachable" rfl rfl rfl⟩

/-! ## C8 — fetch-and-cache provenance -/

/-- Counterexample to C8: a context fetched and cached by the document
loader is stored with provenance tag `"prime"`, not `"fetched"` —
`putContexts` hardcodes `source: 'prime'` on every record it writes. -/
theorem documentLoader_tags_prime :
    ((documentLoader envC8 7 emptyStore "https://example.org/ctx").map
        (fun p => (p.2 "https://example.org/ctx").map (fun r => r.source)))
      = .ok (some (some "prime"))
    ∧ some (some "prime") ≠ (some (some "fetched") : Option (Option String)) :=
  ⟨rfl, by decide⟩

/-- C8 (amended): for a context URL not cached (and not a DID URL), with
network permitted, a successful (2xx) response with a parseable JSON body is
cached under the exact URL — with provenance tag `"prime"`, not `"fetched"`
— and returned. -/
theorem documentLoader_fetch_caches (env : DocLoaderEnv) (now : Nat)
    (st : CtxStore) (url : String) (resp : FetchResp) (doc : Json)
    (hdid : strStartsWith url "did:" = false)
    (hmiss : jsTruthy (getContextJ st url) = false)
    (hnet : env.canFetch = true)
    (hfetch : env.fetch url = .ok resp)
    (hok : respOk resp = true)
    (hbody : resp.body = .ok doc)
    (hurl : url.data.isEmpty = false) :
    documentLoader env now st url
        = .ok (doc, putContexts now [⟨url, doc, none⟩] st)
    ∧ putContexts now [⟨url, doc, none⟩] st url
        = some { url := url, document := doc, cachedAt := now
                 source := some "prime", organization_id := none } := by
  constructor
  · unfold documentLoader
    simp only [hdid, Bool.false_eq_true, if_false, hmiss, hnet, if_true, hfetch, hok, hbody]
  · unfold putContexts insertAll
    simp only [List.isEmpty_cons, Bool.false_eq_true, if_false, List.foldl_cons,
      List.foldl_nil, hurl, Bool.not_false, if_true, storePut, if_pos rfl]

/-- Witness for C8 (amended) at a concrete URL and fetched document. -/
theorem documentLoader_fetch_caches_witness :
    strStartsWith "https://example.org/ctx" "did:" = false
    ∧ envC8.fetch "https://example.org/ctx" = .ok { status := 200, body := .ok (Json.jstr "ctx-document") }
    ∧ documentLoader envC8 7 emptyStore "https://example.org/ctx"
        = .ok (Json.jstr "ctx-document",
            putContexts 7 [⟨"https://example.org/ctx", Json.jstr "ctx-document", none⟩] emptyStore) :=
  ⟨rfl, rfl,
    (documentLoader_fetch_caches envC8 7 emptyStore "https://example.org/ctx"
      { status := 200, body := .ok (Json.jstr "ctx-document") } (Json.jstr "ctx-document")
      rfl rfl rfl rfl rfl rfl rfl).1⟩

/-! ## C9 — did:web key-encoding priority -/

/-- C9: once the DID document is fetched and the verification-method entry
located by exact id, key material is extracted in the fixed priority order
PEM, then multibase, then JWK, then hex — the first present encoding wins —
and an entry carrying none of the four encodings is the unsupported-key-type
error. -/
theorem didWebGet_priority (env : DidWebEnv) (vm domain : String)
    (path : Option String) (doc : DidDoc) (entry : VMEntry)
    (hparse : parseDidWeb (beforeHash vm) = some (domain, path))
    (hfetch : env.fetchDoc (didWebUrl domain path) = .ok doc)
    (hfind : doc.verificationMethod.find? (fun x => x.id == vm) = some entry) :
    (strTruthy entry.publicKeyPem = true →
      didWebGet env vm = .ok (.fromPem (entry.publicKeyPem.getD "") entry.type vm))
    ∧ (strTruthy entry.publicKeyPem = false →
        strTruthy entry.publicKeyMultibase = true →
      didWebGet env vm = .ok (.fromMultibase (entry.publicKeyMultibase.getD "") entry.type vm))
    ∧ (strTruthy entry.publicKeyPem = false →
        strTruthy entry.publicKeyMultibase = false →
        jsOptTruthy entry.publicKeyJwk = true →
      didWebGet env vm = .ok (.fromJwk (entry.publicKeyJwk.getD Json.jnull) entry.type vm))
    ∧ (strTruthy entry.publicKeyPem = false →
        strTruthy entry.publicKeyMultibase = false →
        jsOptTruthy entry.publicKeyJwk = false →
        strTruthy entry.publicKeyHex = true →
      didWebGet env vm = .ok (.fromHex (entry.publicKeyHex.getD "") entry.type vm))
    ∧ (strTruthy entry.publicKeyPem = false →
        strTruthy entry.publicKeyMultibase = false →
        jsOptTruthy entry.publicKeyJwk = false →
        strTruthy entry.publicKeyHex = false →
      didWebGet env vm = .error "Public Key type is not supported") := by
  refine ⟨?_, ?_, ?_, ?_, ?_⟩ <;>
    · intros
      unfold didWebGet
      simp only [hparse, hfetch, hfind]
      simp [*]

/-- Witness for C9: an entry carrying multibase, JWK and hex (no PEM)
resolves through the multibase branch. -/
theorem didWebGet_priority_witness :
    parseDidWeb (beforeHash "did:web:example.com#key-1") = some ("example.com", none)
    ∧ envC9.fetchDoc (didWebUrl "example.com" none) = .ok docC9
    ∧ didWebGet envC9 "did:web:example.com#key-1"
        = .ok (.fromMultibase "zMulti" (some "Ed25519VerificationKey2020")
            "did:web:example.com#key-1") :=
  ⟨rfl, rfl,
    (didWebGet_priority envC9 "did:web:example.com#key-1" "example.com" none docC9
      { id := "did:web:example.com#key-1", type := some "Ed25519VerificationKey2020"
        publicKeyPem := none, publicKeyMultibase := some "zMulti"
        publicKeyJwk := some (Json.jobj [("kty", Json.jstr "OKP")])
        publicKeyHex := some "deadbeef" }
      rfl rfl rfl).2.1 rfl rfl⟩

end InjiOffline
